import Mathlib

/-!
Verification development for the SmartShop shopping-list application
(sources: `src/vite.config.ts` (SummaryModal revisions), `src/services/geminiService.ts`
(two gateway revisions), `src/unnamed/part_000` (App), `src/unnamed/part_001` (types)).

Numbers are modelled as `ℚ` (JS numbers on the values the program manipulates:
prices, distances, weights), and JS `Infinity` as `none : Option ℚ`.
-/

namespace SmartShop

/-! ## JS-style helpers -/

/-- JS `a || b` on an optional numeric value: `undefined` and `0` are falsy. -/
def jsOrNat : Option ℕ → ℕ → ℕ
  | some n, b => if n = 0 then b else n
  | none, b => b

/-- JS `a || b` on strings: the empty string is falsy. -/
def jsOrStr (a b : String) : String := if a = "" then b else a

/-- JS `<` on numbers where `none` stands for `Infinity`. -/
def oltB : Option ℚ → Option ℚ → Bool
  | some a, some b => decide (a < b)
  | some _, none => true
  | none, _ => false

/-- JS `<=` on numbers where `none` stands for `Infinity`. -/
def oleB : Option ℚ → Option ℚ → Bool
  | some a, some b => decide (a ≤ b)
  | some _, none => true
  | none, _ => false

/-- ASCII part of the regex class `\s` (also used for `String.trim`). -/
def isWS (c : Char) : Bool :=
  c = ' ' || c = '\t' || c = '\n' || c = '\r' || c = '\x0b' || c = '\x0c'

/-- Numeric value of a list of decimal digit characters. -/
def natOfDigits (l : List Char) : ℕ := l.foldl (fun n c => 10 * n + (c.toNat - 48)) 0

/-- Value captured by the first match of `/(\d+(\.\d+)?)/` in a character list,
as read by `parseFloat`; `none` when the text holds no digit. -/
def firstNumber : List Char → Option ℚ
  | [] => none
  | c :: rest =>
    if c.isDigit then
      let ds := List.takeWhile Char.isDigit (c :: rest)
      let r1 := List.dropWhile Char.isDigit (c :: rest)
      match r1 with
      | '.' :: r2 =>
        let fs := r2.takeWhile Char.isDigit
        if fs.isEmpty then some (natOfDigits ds)
        else some ((natOfDigits ds : ℚ) + (natOfDigits fs : ℚ) / 10 ^ fs.length)
      | _ => some ((natOfDigits ds : ℚ))
    else firstNumber rest

/-- Source: `src/vite.config.ts` lines 124-127 — `getNumericDistance`:
first decimal-or-integer number in the distance text, `Infinity` (`none`) otherwise. -/
def getNumericDistance (s : String) : Option ℚ := firstNumber s.data

/-! ## Data model (source: `src/unnamed/part_001`) -/

/-- Source: `UnitSystem` in `src/unnamed/part_001`. -/
inductive UnitSystem where
  | metric
  | imperial
deriving DecidableEq, Repr

/-- Source: `PriceOption` in `src/unnamed/part_001`. -/
structure PriceOption where
  shop : String
  price : ℚ
  currency : String
deriving DecidableEq, Repr

/-- Source: the `status` union of `ShoppingItem` in `src/unnamed/part_001`. -/
inductive Status where
  | pending
  | correcting
  | vague
  | searching
  | ready
  | error
deriving DecidableEq, Repr

/-- Source: `ShoppingItem` in `src/unnamed/part_001` (the TS field `example` is
`exampleStr` here, `example` being reserved in Lean). -/
structure ShoppingItem where
  id : String
  originalName : String
  name : String
  emoji : String
  status : Status
  options : Option (List String) := none
  exampleStr : Option String := none
  topOptions : Option (List PriceOption) := none
  cheapestShop : Option String := none
  price : Option ℚ := none
  currency : Option String := none
  error : Option String := none
  isSelected : Option Bool := none
deriving DecidableEq, Repr

/-- Result of `getStoreBranchDetails` (`src/services/geminiService.ts`). -/
structure BranchInfo where
  branchName : String
  distance : String
deriving DecidableEq, Repr

/-! ## Quota Gateway throttle (source: `src/services/geminiService.ts` lines 16-33)

`requestQueue` is a chain of promises; each caller of `throttle` remembers the
current tail, installs a fresh tail, awaits the old tail, sleeps the gap, and
resolves its own tail.  The lane state is the time at which the current tail
resolves; a caller is admitted when its sleep finishes. -/

/-- Source: `REQUEST_GAP` constant, line 18. -/
def REQUEST_GAP : ℕ := 1200

/-- Lane state: the time at which the promise currently stored in
`requestQueue` resolves. -/
structure Lane where
  avail : ℕ
deriving DecidableEq, Repr

/-- One caller running `throttle`: awaits the previous tail (resolving at
`lane.avail`), sleeps `gap`, then resolves its own tail and is admitted. -/
def throttle (gap : ℕ) (lane : Lane) : ℕ × Lane :=
  (lane.avail + gap, ⟨lane.avail + gap⟩)

/-- Admission times of `n` calls all issued at time 0, chained in issue order. -/
def admitAll (gap : ℕ) : ℕ → Lane → List ℕ
  | 0, _ => []
  | n + 1, lane => (throttle gap lane).1 :: admitAll gap n (throttle gap lane).2

/-- Admission times for `n` calls issued at time 0 through a fresh lane. -/
def admissionTimes (gap n : ℕ) : List ℕ := admitAll gap n ⟨0⟩

/-! ## Gateway error classification (source: `src/services/geminiService.ts`
lines 262-297, the revision with the daily-quota logic) -/

/-- Lowercased copy of a string (JS `toLowerCase`, ASCII letters suffice here). -/
def lowerStr (s : String) : String := String.mk (s.data.map Char.toLower)

/-- JS `String.prototype.includes` on character lists. -/
def listHasSub (hay needle : List Char) : Bool := hay.tails.any (fun t => needle.isPrefixOf t)

/-- JS `hay.includes(needle)`. -/
def strIncludes (hay needle : String) : Bool := listHasSub hay.data needle.data

/-- Shape of a failure raised by the backend client: optional `status`,
optional nested `error.code`, and a message. -/
structure ApiError where
  status : Option ℕ
  code : Option ℕ
  message : String
deriving DecidableEq, Repr

/-- Source line 269, the status derivation chain `status, error.code, message`
(status, then nested code, then 429 when the message holds "429", else 500)`. -/
def errStatus (e : ApiError) : ℕ :=
  jsOrNat e.status (jsOrNat e.code (if strIncludes e.message "429" then 429 else 500))

/-- Source lines 233-245: `GeminiError` of the daily-quota revision. -/
structure GemError where
  message : String
  status : ℕ
  isRateLimit : Bool
  isDaily : Bool
deriving DecidableEq, Repr

/-- Source line 284: terminal message for a daily-quota 429. -/
def dailyMsg : String := "Daily API limit reached. Try again in 24 hours."

/-- Source line 285: message for a non-daily 429 that survived the retry. -/
def tempMsg : String := "Temporary rate limit reached. Please wait 60 seconds."

/-- Source line 275: the message mentions "daily" or "per day" (lowercased). -/
def isDailySignal (msg : String) : Bool :=
  strIncludes (lowerStr msg) "daily" || strIncludes (lowerStr msg) "per day"

/-- Source lines 262-297: `handleApiCall` of the daily-quota revision.
`call k` is the outcome of the k-th attempt of the wrapped thunk.  Returns the
final result, the number of attempts made, and the list of retry delays slept
(the pre-call throttle sleep is modelled separately by `throttle`). -/
def handleApiCall {T : Type} (call : ℕ → Except ApiError T) :
    ℕ → ℕ → Except GemError T × ℕ × List ℕ
  | k, retries =>
    match call k with
    | Except.ok v => (Except.ok v, 1, [])
    | Except.error e =>
      let status := errStatus e
      if status = 429 then
        if h : 0 < retries ∧ isDailySignal e.message = false then
          let r := handleApiCall call (k + 1) (retries - 1)
          (r.1, r.2.1 + 1, 15000 :: r.2.2)
        else
          (Except.error ⟨if isDailySignal e.message then dailyMsg else tempMsg, 429, true,
            isDailySignal e.message⟩, 1, [])
      else if h5 : 500 ≤ status ∧ 0 < retries then
        let r := handleApiCall call (k + 1) (retries - 1)
        (r.1, r.2.1 + 1, 5000 :: r.2.2)
      else
        (Except.error ⟨jsOrStr e.message "AI Service Error", status, decide (status = 429),
          false⟩, 1, [])
termination_by k retries => retries
decreasing_by
  · omega
  · omega

/-! ## Branch Locator parsing (source: `src/services/geminiService.ts`
lines 167-175, as cited: the revision whose branch fallback appends " (Nearby)") -/

/-- First index of a case-insensitive occurrence of `needle` (JS
`text.match(/needle/i)` for a pattern of plain characters). -/
def findCI (needle : List Char) : List Char → Option ℕ
  | [] => if needle.isEmpty then some 0 else none
  | c :: rest =>
    if (needle.map Char.toLower).isPrefixOf ((c :: rest).map Char.toLower) then some 0
    else (findCI needle rest).map (· + 1)

/-- Drop trailing ASCII whitespace. -/
def trimEnd (l : List Char) : List Char := (l.reverse.dropWhile isWS).reverse

/-- Capture of `/TAG:\s*(.*)/i` followed by `.trim()`: after the first
case-insensitive occurrence of the tag, greedily skip whitespace (newlines
included), capture to the end of the line, and trim. -/
def matchAfterTag (tag text : String) : Option String :=
  match findCI tag.data text.data with
  | none => none
  | some i =>
    let after := text.data.drop (i + tag.data.length)
    let cap := (after.dropWhile isWS).takeWhile (fun c => c ≠ '\n' && c ≠ '\r')
    some (String.mk (trimEnd cap))

/-- Source lines 167-174: parsing part of `getStoreBranchDetails` over the
response text. -/
def getStoreBranchDetailsParse (shopName text : String) : BranchInfo :=
  { branchName := (matchAfterTag "BRANCH:" text).getD (shopName ++ " (Nearby)")
    distance := (matchAfterTag "DISTANCE:" text).getD "Nearby" }

/-! ## JSON values and `JSON.parse` (used by `findTopPriceOptions`,
source: `src/services/geminiService.ts` lines 366-392) -/

/-- JSON values. -/
inductive Json where
  | null : Json
  | bool (b : Bool) : Json
  | num (q : ℚ) : Json
  | str (s : String) : Json
  | arr (elems : List Json) : Json
  | obj (fields : List (String × Json)) : Json
deriving Repr

/-- The character `{` (kept out of the source text). -/
def braceOpen : Char := Char.ofNat 123

/-- The character `}` (kept out of the source text). -/
def braceClose : Char := Char.ofNat 125

/-- JSON insignificant whitespace. -/
def skipJWS (cs : List Char) : List Char :=
  cs.dropWhile (fun c => c = ' ' || c = '\t' || c = '\n' || c = '\r')

/-- Value of a hexadecimal digit. -/
def hexVal (c : Char) : Option ℕ :=
  if c.isDigit then some (c.toNat - 48)
  else if 'a' ≤ c && c ≤ 'f' then some (c.toNat - 87)
  else if 'A' ≤ c && c ≤ 'F' then some (c.toNat - 55)
  else none

/-- Body of a JSON string, after the opening quote: returns the decoded
characters and the input after the closing quote. -/
def parseJStr : ℕ → List Char → Option (List Char × List Char)
  | 0, _ => none
  | _, [] => none
  | fuel + 1, c :: rest =>
    if c = '"' then some ([], rest)
    else if c = '\\' then
      match rest with
      | [] => none
      | e :: rest2 =>
        if e = '"' then (parseJStr fuel rest2).map (fun p => ('"' :: p.1, p.2))
        else if e = '\\' then (parseJStr fuel rest2).map (fun p => ('\\' :: p.1, p.2))
        else if e = '/' then (parseJStr fuel rest2).map (fun p => ('/' :: p.1, p.2))
        else if e = 'b' then (parseJStr fuel rest2).map (fun p => ('\x08' :: p.1, p.2))
        else if e = 'f' then (parseJStr fuel rest2).map (fun p => ('\x0c' :: p.1, p.2))
        else if e = 'n' then (parseJStr fuel rest2).map (fun p => ('\n' :: p.1, p.2))
        else if e = 'r' then (parseJStr fuel rest2).map (fun p => ('\r' :: p.1, p.2))
        else if e = 't' then (parseJStr fuel rest2).map (fun p => ('\t' :: p.1, p.2))
        else if e = 'u' then
          match rest2 with
          | h1 :: h2 :: h3 :: h4 :: rest3 =>
            match hexVal h1, hexVal h2, hexVal h3, hexVal h4 with
            | some a, some b, some c2, some d =>
              (parseJStr fuel rest3).map
                (fun p => (Char.ofNat (((a * 16 + b) * 16 + c2) * 16 + d) :: p.1, p.2))
            | _, _, _, _ => none
          | _ => none
        else none
    else if c.toNat < 32 then none
    else (parseJStr fuel rest).map (fun p => (c :: p.1, p.2))

/-- One or more decimal digits. -/
def parseDigits (cs : List Char) : Option (List Char × List Char) :=
  let ds := cs.takeWhile Char.isDigit
  if ds.isEmpty then none else some (ds, cs.dropWhile Char.isDigit)

/-- JSON number grammar: `-? int frac? exp?`, `int = 0 | [1-9][0-9]*`. -/
def parseJNum (cs : List Char) : Option (ℚ × List Char) :=
  let signed : Bool × List Char := match cs with
    | '-' :: r => (true, r)
    | _ => (false, cs)
  let intPart : Option (List Char × List Char) := match signed.2 with
    | '0' :: r => some (['0'], r)
    | c :: _ => if c.isDigit then parseDigits signed.2 else none
    | [] => none
  match intPart with
  | none => none
  | some (ids, r1) =>
    let fracPart : Option (List Char × List Char) := match r1 with
      | '.' :: r2 =>
        match parseDigits r2 with
        | some (fds, r3) => some (fds, r3)
        | none => none
      | _ => some ([], r1)
    match fracPart with
    | none => none
    | some (fds, r4) =>
      let expPart : Option (Bool × List Char × List Char) := match r4 with
        | 'e' :: r5 =>
          match r5 with
          | '+' :: r6 => (parseDigits r6).map (fun p => (false, p))
          | '-' :: r6 => (parseDigits r6).map (fun p => (true, p))
          | _ => (parseDigits r5).map (fun p => (false, p))
        | 'E' :: r5 =>
          match r5 with
          | '+' :: r6 => (parseDigits r6).map (fun p => (false, p))
          | '-' :: r6 => (parseDigits r6).map (fun p => (true, p))
          | _ => (parseDigits r5).map (fun p => (false, p))
        | _ => some (false, [], r4)
      match expPart with
      | none => none
      | some (eneg, eds, r7) =>
        let base : ℚ := (natOfDigits ids : ℚ) + (natOfDigits fds : ℚ) / 10 ^ fds.length
        let scaled : ℚ :=
          if eds.isEmpty then base
          else if eneg then base / 10 ^ natOfDigits eds else base * 10 ^ natOfDigits eds
        some (if signed.1 then -scaled else scaled, r7)

mutual

/-- JSON value (leading whitespace already skipped). -/
def parseJVal : ℕ → List Char → Option (Json × List Char)
  | 0, _ => none
  | fuel + 1, cs =>
    match cs with
    | [] => none
    | c :: rest =>
      if c = 'n' then
        match rest with
        | 'u' :: 'l' :: 'l' :: r => some (Json.null, r)
        | _ => none
      else if c = 't' then
        match rest with
        | 'r' :: 'u' :: 'e' :: r => some (Json.bool true, r)
        | _ => none
      else if c = 'f' then
        match rest with
        | 'a' :: 'l' :: 's' :: 'e' :: r => some (Json.bool false, r)
        | _ => none
      else if c = '"' then
        (parseJStr (rest.length + 1) rest).map (fun p => (Json.str (String.mk p.1), p.2))
      else if c = '[' then
        let cs1 := skipJWS rest
        match cs1 with
        | c2 :: r2 => if c2 = ']' then some (Json.arr [], r2)
                      else (parseJElems fuel cs1).map (fun p => (Json.arr p.1, p.2))
        | [] => none
      else if c = braceOpen then
        let cs1 := skipJWS rest
        match cs1 with
        | c2 :: r2 => if c2 = braceClose then some (Json.obj [], r2)
                      else (parseJFields fuel cs1).map (fun p => (Json.obj p.1, p.2))
        | [] => none
      else
        (parseJNum cs).map (fun p => (Json.num p.1, p.2))

/-- Comma-separated JSON values up to the closing `]`. -/
def parseJElems : ℕ → List Char → Option (List Json × List Char)
  | 0, _ => none
  | fuel + 1, cs =>
    match parseJVal fuel cs with
    | none => none
    | some (v, r1) =>
      match skipJWS r1 with
      | ']' :: r2 => some ([v], r2)
      | ',' :: r2 =>
        match parseJElems fuel (skipJWS r2) with
        | some (vs, r3) => some (v :: vs, r3)
        | none => none
      | _ => none

/-- Comma-separated `"key": value` pairs up to the closing brace. -/
def parseJFields : ℕ → List Char → Option (List (String × Json) × List Char)
  | 0, _ => none
  | fuel + 1, cs =>
    match cs with
    | '"' :: rest =>
      match parseJStr (rest.length + 1) rest with
      | none => none
      | some (key, r1) =>
        match skipJWS r1 with
        | ':' :: r2 =>
          match parseJVal fuel (skipJWS r2) with
          | none => none
          | some (v, r3) =>
            match skipJWS r3 with
            | c :: r4 =>
              if c = braceClose then some ([(String.mk key, v)], r4)
              else if c = ',' then
                match parseJFields fuel (skipJWS r4) with
                | some (fs, r5) => some ((String.mk key, v) :: fs, r5)
                | none => none
              else none
            | [] => none
        | _ => none
    | _ => none

end

/-- Model of `JSON.parse`: parse one value, with surrounding whitespace, and demand the
whole input is consumed; `none` models the thrown `SyntaxError`. -/
def jsonParse (s : String) : Option Json :=
  match parseJVal (s.data.length + 2) (skipJWS s.data) with
  | some (v, rest) => if (skipJWS rest).isEmpty then some v else none
  | none => none

/-- The match of `/\[.*\]/s` (source line 384): leftmost match start is the
first `[`, and the greedy `.*` under `/s` runs to the last `]` of the text. -/
def firstBracketSpan (cs : List Char) : Option (List Char) :=
  match cs.findIdx? (fun c => c = '['), cs.reverse.findIdx? (fun c => c = ']') with
  | some i, some jr =>
    let j := cs.length - 1 - jr
    if i < j then some ((cs.drop i).take (j - i + 1)) else none
  | _, _ => none

/-- The string handed to `JSON.parse` on line 386: the `/\[.*\]/s` match when
there is one, the raw text (after `|| "[]"`) otherwise. -/
def extractedFragment (responseText : String) : String :=
  let text := jsOrStr responseText "[]"
  match firstBracketSpan text.data with
  | some cs => String.mk cs
  | none => text

/-- Source lines 382-391: response-text handling of `findTopPriceOptions` —
`text = response.text || "[]"`, extract `/\[.*\]/s`, `JSON.parse` the match
(or the raw text when there is no match), and return `[]` on a parse error. -/
def findTopPriceOptionsParse (responseText : String) : Json :=
  match jsonParse (extractedFragment responseText) with
  | some v => v
  | none => Json.arr []

/-! ## Strategy Ranking Engine (source: `src/vite.config.ts` lines 60-259,
the `SummaryModal` revision with `calculateSummary` using `getPriceAtShop`).
External calls (`getStoreBranchDetails`, `getPriceAtShop`) are supplied as
oracle functions; the second result component counts those invocations. -/

/-- Source lines 76, 505: one line of a strategy receipt. -/
structure ReceiptEntry where
  itemName : String
  price : ℚ
  isCheapestHere : Bool
deriving DecidableEq, Repr

/-- Source lines 77, 506: one savings-gap record. -/
structure SavingsEntry where
  itemName : String
  cheapestPrice : ℚ
  cheapestShop : String
  bestShopPrice : ℚ
  difference : ℚ
deriving DecidableEq, Repr

/-- Source lines 65-79: `RankedShop`. `numericDistance = none` is `Infinity`. -/
structure RankedShop where
  shopName : String
  branchName : String
  distance : String
  numericDistance : Option ℚ
  totalPrice : ℚ
  weight : ℤ
  itemsAtBest : ℕ
  isClosest : Bool
  isCheapest : Bool
  isWithinPreference : Bool
  receipt : List ReceiptEntry
  savingsDiff : List SavingsEntry
  potentialSavings : ℚ
deriving DecidableEq, Repr

/-- One `shopWeights[opt.shop] = (shopWeights[opt.shop] || 0) + weight` update
on an insertion-ordered record. -/
def addWeight (acc : List (String × ℤ)) (shop : String) (w : ℤ) : List (String × ℤ) :=
  if acc.any (fun p => p.1 = shop) then
    acc.map (fun p => if p.1 = shop then (p.1, p.2 + w) else p)
  else acc ++ [(shop, w)]

/-- Source lines 139-145: rank-position weights (`3 - idx`) accumulated per
shop over the ready items, in JS object insertion order. -/
def shopWeights (readyItems : List ShoppingItem) : List (String × ℤ) :=
  readyItems.foldl
    (fun acc item =>
      (item.topOptions.getD []).enum.foldl
        (fun a p => addWeight a p.2.shop (3 - (p.1 : ℤ))) acc)
    []

/-- Comparator `(a, b) => b[1] - a[1]` of line 148 as a sorting relation
(descending weight; JS `sort` is stable). -/
def weightRel (a b : String × ℤ) : Prop := b.2 ≤ a.2

instance : DecidableRel weightRel := fun a b => Int.decLe b.2 a.2

instance : IsTotal (String × ℤ) weightRel := ⟨fun a b => le_total b.2 a.2⟩

instance : IsTrans (String × ℤ) weightRel := ⟨fun _ _ _ h₁ h₂ => le_trans h₂ h₁⟩

/-- Source line 171: `item.topOptions?.[0] || { price: 0, shop: "N/A" }`
(shop and price of the fallback object). -/
def absCheapest (item : ShoppingItem) : String × ℚ :=
  match item.topOptions with
  | some (o :: _) => (o.shop, o.price)
  | _ => ("N/A", 0)

/-- Accumulator state of the inner loop of `calculateSummary` (lines 163-204):
running total, cheapest-here count, savings sum, receipt, savings list,
and the number of `getPriceAtShop` calls issued. -/
structure ShopEval where
  total : ℚ
  itemsAtBest : ℕ
  savings : ℚ
  receipt : List ReceiptEntry
  diffs : List SavingsEntry
  calls : ℕ
deriving DecidableEq, Repr

/-- Source lines 169-204: the per-item loop for one candidate shop. -/
def evalItems (priceO : String → String → ℚ) (candName : String) :
    List ShoppingItem → ShopEval
  | [] => ⟨0, 0, 0, [], [], 0⟩
  | item :: rest =>
    let cheap := absCheapest item
    let found := (item.topOptions.getD []).find? (fun o => o.shop = candName)
    let p : ℚ := match found with
      | some o => o.price
      | none => priceO item.name candName
    let newCalls : ℕ := match found with
      | some _ => 0
      | none => 1
    let isCh : Bool := candName = cheap.1
    let d := p - cheap.2
    let e := evalItems priceO candName rest
    { total := p + e.total
      itemsAtBest := (if isCh then 1 else 0) + e.itemsAtBest
      savings := (if isCh = false ∧ d > 1/100 then d else 0) + e.savings
      receipt := ⟨item.name, p, isCh⟩ :: e.receipt
      diffs := (if isCh = false ∧ d > 1/100 then [⟨item.name, cheap.2, cheap.1, p, d⟩] else [])
        ++ e.diffs
      calls := newCalls + e.calls }

/-- Source lines 154-221: evaluation of one candidate shop, including the
`getStoreBranchDetails` call (counted as one invocation). -/
def evalShop (branchO : String → BranchInfo) (priceO : String → String → ℚ)
    (maxDistance : ℚ) (readyItems : List ShoppingItem) (cand : String × ℤ) :
    RankedShop × ℕ :=
  let bi := branchO cand.1
  let nd := getNumericDistance bi.distance
  let e := evalItems priceO cand.1 readyItems
  ({ shopName := cand.1
     branchName := bi.branchName
     distance := bi.distance
     numericDistance := nd
     totalPrice := e.total
     weight := cand.2
     itemsAtBest := e.itemsAtBest
     isClosest := false
     isCheapest := false
     isWithinPreference := oleB nd (some maxDistance)
     receipt := e.receipt
     savingsDiff := e.diffs
     potentialSavings := e.savings }, e.calls + 1)

/-- Comparator of lines 223-227 as a sorting relation: within-preference
candidates first, then ascending total price (JS `sort` is stable). -/
def rankRel (a b : RankedShop) : Prop :=
  (a.isWithinPreference = true ∧ b.isWithinPreference = false) ∨
  (a.isWithinPreference = b.isWithinPreference ∧ a.totalPrice ≤ b.totalPrice)

instance : DecidableRel rankRel := fun a b => by unfold rankRel; infer_instance

instance : IsTotal RankedShop rankRel := by
  constructor
  intro a b
  unfold rankRel
  cases ha : a.isWithinPreference <;> cases hb : b.isWithinPreference <;>
    simp [ha, hb] <;> exact le_total a.totalPrice b.totalPrice

instance : IsTrans RankedShop rankRel := by
  constructor
  intro a b c hab hbc
  unfold rankRel at *
  cases ha : a.isWithinPreference <;> cases hb : b.isWithinPreference <;>
    cases hc : c.isWithinPreference <;> simp_all <;> exact le_trans hab hbc

/-- Source lines 237-246 (one `forEach` pass): running strict-minimum scan
returning the index of the first strict improvement chain end; `best` starts
at `Infinity` (`none`) and `bestIdx` at `-1` (`none`). -/
def scanMin {α : Type} (f : α → Option ℚ) : List α → ℕ → Option ℚ → Option ℕ → Option ℕ
  | [], _, _, bestIdx => bestIdx
  | x :: rest, idx, best, bestIdx =>
    if oltB (f x) best then scanMin f rest (idx + 1) (f x) (some idx)
    else scanMin f rest (idx + 1) best bestIdx

/-- Source lines 248-249: set `isClosest`/`isCheapest` at the scanned indices
(all other entries keep their flags). -/
def setFlags (cIdx qIdx : Option ℕ) : ℕ → List RankedShop → List RankedShop
  | _, [] => []
  | i, s :: rest =>
    { s with isClosest := if cIdx = some i then true else s.isClosest,
             isCheapest := if qIdx = some i then true else s.isCheapest } ::
      setFlags cIdx qIdx (i + 1) rest

/-- Source lines 231-250: flag the closest and cheapest retained strategies. -/
def flagStrategies (l : List RankedShop) : List RankedShop :=
  if 0 < l.length then
    setFlags (scanMin (fun s => s.numericDistance) l 0 none none)
      (scanMin (fun s => some s.totalPrice) l 0 none none) 0 l
  else l

/-- Source lines 129-256: the whole `calculateSummary` run. Returns the ranked
strategies, the number of external calls issued, and whether the run reached
`onCalculationDone` (it returns early when no item is ready). -/
def calculateSummary (branchO : String → BranchInfo) (priceO : String → String → ℚ)
    (items : List ShoppingItem) (maxDistance : ℚ) : List RankedShop × ℕ × Bool :=
  let readyItems := items.filter (fun i => decide (i.status = Status.ready))
  if readyItems.length = 0 then ([], 0, false)
  else
    let cands := ((shopWeights readyItems).insertionSort weightRel).take 5
    let evald := cands.map (evalShop branchO priceO maxDistance readyItems)
    let ranked := evald.map Prod.fst
    let callCount := (evald.map (fun p => p.2)).sum
    (flagStrategies ((ranked.insertionSort rankRel).take 3), callCount, true)

/-- The retained strategy list before flagging (the value of
`calculatedRanked` right after the sort of lines 223-227 and the
`slice(0, 3)` of line 229), on a run with at least one ready item. -/
def rankedBase (branchO : String → BranchInfo) (priceO : String → String → ℚ)
    (items : List ShoppingItem) (maxDistance : ℚ) : List RankedShop :=
  let readyItems := items.filter (fun i => decide (i.status = Status.ready))
  let cands := ((shopWeights readyItems).insertionSort weightRel).take 5
  (((cands.map (evalShop branchO priceO maxDistance readyItems)).map
    Prod.fst).insertionSort rankRel).take 3

/-! ## Result cache (source: `src/unnamed/part_000` lines 19-38, 183-186,
320-331 and `src/vite.config.ts` lines 116-121) -/

/-- Components of the `currentFingerprint` string (line 33-38): sorted
`id + name` keys of ready items, both location keys rounded via `toFixed(4)`,
the distance preference, and the unit system. -/
structure Fingerprint where
  readyKeys : List String
  locKey : Option (ℤ × ℤ)
  manualLocKey : Option (ℤ × ℤ)
  maxDistance : ℚ
  distanceUnit : UnitSystem
deriving DecidableEq

/-- JS `toFixed(4)` viewed as an integer count of 1/10000 units. -/
def toFixed4 (q : ℚ) : ℤ := round (q * 10000)

/-- Source lines 33-38: the ranking fingerprint of the current app state. -/
def currentFingerprint (items : List ShoppingItem) (location manualLocation : Option (ℚ × ℚ))
    (maxDistance : ℚ) (unit : UnitSystem) : Fingerprint :=
  { readyKeys := ((items.filter (fun i => decide (i.status = Status.ready))).map
      (fun i => i.id ++ i.name)).insertionSort (· ≤ ·)
    locKey := location.map (fun p => (toFixed4 p.1, toFixed4 p.2))
    manualLocKey := manualLocation.map (fun p => (toFixed4 p.1, toFixed4 p.2))
    maxDistance := maxDistance
    distanceUnit := unit }

/-- App-level cache state: `lastCalculationFingerprint` (initially the empty
string, which matches no computed fingerprint, hence `Option`) and
`cachedRankedShops`. -/
structure CacheState where
  lastFp : Option Fingerprint
  cache : Option (List RankedShop)

/-- One opening of the summary modal (source: `part_000` lines 320-331 pass
`cachedData` exactly when the stored fingerprint equals the current one;
`vite.config.ts` lines 116-121 use `cachedData` directly, with no external
call, otherwise run `calculateSummary` and report it to `handleSummaryResult`,
lines 183-186, which stores the result with the fingerprint). Returns the
displayed strategies, the number of external calls, and the new cache state. -/
def requestSummary (branchO : String → BranchInfo) (priceO : String → String → ℚ)
    (st : CacheState) (items : List ShoppingItem) (location manualLocation : Option (ℚ × ℚ))
    (maxDistance : ℚ) (unit : UnitSystem) : List RankedShop × ℕ × CacheState :=
  let fp := currentFingerprint items location manualLocation maxDistance unit
  match (if st.lastFp = some fp then st.cache else none) with
  | some d => (d, 0, st)
  | none =>
    let r := calculateSummary branchO priceO items maxDistance
    (r.1, r.2.1, if r.2.2 then ⟨some fp, some r.1⟩ else st)

/-! ## Item lifecycle (source: `src/unnamed/part_000` lines 71-123, 140-154,
and the `onOptionPick`/`onRetry` wiring of lines 227-237 together with the UI
guards of `src/components/ShoppingItemCard.tsx`: retry is offered only on
`error` items, option picks only on `vague` items). Each constructor is one
`setItems` update; `E` constrains the names delivered by the environment
(resolver results and user picks). -/

/-- Result shape of `refineItem` (`src/services/geminiService.ts`). -/
structure RefineResult where
  name : String
  emoji : String
  isVague : Bool
  options : Option (List String)
  exampleStr : Option String
deriving DecidableEq, Repr

/-- Source line 98: fallback of `topOptions[0] || ...` in `continueWithItem`
(the repository file spells the currency byte-for-byte as below). -/
def unknownQuote : PriceOption := ⟨"Unknown", 0, "Â£"⟩

/-- Micro-step relation on one shopping item: each constructor is one
`setItems` state update of `processItem` / `continueWithItem` /
`handleProcessingError`, guarded by the statuses at which the code paths fire. -/
inductive ItemStep (E : String → Prop) : ShoppingItem → ShoppingItem → Prop where
  | startProcess (i : ShoppingItem) (h : i.status = Status.pending ∨ i.status = Status.error) :
      ItemStep E i { i with status := Status.correcting, error := none }
  | refineVague (i : ShoppingItem) (h : i.status = Status.correcting) (r : RefineResult)
      (hv : r.isVague = true) (ho : r.options ≠ none) (hE : E r.name) :
      ItemStep E i { i with
        name := r.name
        emoji := r.emoji
        status := Status.vague
        options := r.options
        exampleStr := r.exampleStr }
  | refineFail (i : ShoppingItem) (h : i.status = Status.correcting) (msg : String) :
      ItemStep E i { i with status := Status.error, error := some msg }
  | startSearch (i : ShoppingItem)
      (h : i.status = Status.correcting ∨ i.status = Status.vague)
      (n em : String) (hE : E n) :
      ItemStep E i { i with name := n, emoji := em, status := Status.searching, error := none }
  | priceOk (i : ShoppingItem) (h : i.status = Status.searching) (quotes : List PriceOption) :
      ItemStep E i { i with
        topOptions := some quotes
        cheapestShop := some (quotes.headD unknownQuote).shop
        price := some (quotes.headD unknownQuote).price
        currency := some (quotes.headD unknownQuote).currency
        status := Status.ready }
  | readyNoLoc (i : ShoppingItem) (h : i.status = Status.searching) :
      ItemStep E i { i with status := Status.ready }
  | priceFail (i : ShoppingItem) (h : i.status = Status.searching) (msg : String) :
      ItemStep E i { i with status := Status.error, error := some msg }

/-- The edges of the claimed state machine: `pending → correcting →
(vague or searching) → (ready or error)`, plus `vague → searching` and
`error → correcting`. -/
def claimEdge (s t : Status) : Prop :=
  (s = Status.pending ∧ t = Status.correcting) ∨
  (s = Status.correcting ∧ (t = Status.vague ∨ t = Status.searching)) ∨
  ((s = Status.vague ∨ s = Status.searching) ∧ (t = Status.ready ∨ t = Status.error)) ∨
  (s = Status.vague ∧ t = Status.searching) ∨
  (s = Status.error ∧ t = Status.correcting)

instance : ∀ s t, Decidable (claimEdge s t) := fun s t => by unfold claimEdge; infer_instance

/-- The claimed edges extended with `correcting → error`, the transition taken
by `handleProcessingError` when `refineItem` itself fails (lines 87-89). -/
def extEdge (s t : Status) : Prop := claimEdge s t ∨ (s = Status.correcting ∧ t = Status.error)

instance : ∀ s t, Decidable (extEdge s t) := fun s t => by unfold extEdge; infer_instance

/-- An item as `addItem` (lines 140-154) creates it: trimmed non-empty input,
status `pending`. -/
def itemPendingMilk : ShoppingItem :=
  { id := "a1", originalName := "milk", name := "milk", emoji := "c", status := Status.pending }

/-- State of `itemPendingMilk` after `processItem` entered `correcting`. -/
def itemCorrecting : ShoppingItem := { itemPendingMilk with status := Status.correcting, error := none }

/-- State of `itemCorrecting` after `refineItem` failed. -/
def itemFailed : ShoppingItem :=
  { itemCorrecting with status := Status.error, error := some "API Request failed. Try again." }

/-! ## Concrete ranking scenarios -/

/-- A ready item whose quotes are 3.00 at ShopA and 4.00 at ShopB
(end-to-end scenario C of the specification). -/
def scItem : ShoppingItem :=
  { id := "i1", originalName := "milk", name := "milk", emoji := "c", status := Status.ready,
    topOptions := some [⟨"ShopA", 3, "GBP"⟩, ⟨"ShopB", 4, "GBP"⟩],
    cheapestShop := some "ShopA", price := some 3, currency := some "GBP" }

/-- Branch oracle of scenario C: ShopA at 10 km, ShopB at 3 km. -/
def scBranchO : String → BranchInfo :=
  fun s => if s = "ShopA" then ⟨"ShopA Central", "10 km"⟩ else ⟨"ShopB Central", "3 km"⟩

/-- Price oracle (unused in scenario C: both shops quote the item). -/
def scPriceO : String → String → ℚ := fun _ _ => 0

/-- A ready item quoted only at Tesco, whose branch answer carries no number
("Nearby"), so the parsed distance is `Infinity`. -/
def nbItem : ShoppingItem :=
  { id := "i2", originalName := "tea", name := "tea", emoji := "c", status := Status.ready,
    topOptions := some [⟨"Tesco", 2, "GBP"⟩],
    cheapestShop := some "Tesco", price := some 2, currency := some "GBP" }

/-- Branch oracle answering with no distance number. -/
def nbBranchO : String → BranchInfo := fun _ => ⟨"Tesco Central", "Nearby"⟩

/-- Branch oracle answering with a finite distance for every shop. -/
def fdBranchO : String → BranchInfo := fun _ => ⟨"Tesco Central", "2 km"⟩

/-! ## Characterizations and concrete inputs used in the statements below -/

/-- Price the inner loop uses for one item at one candidate shop: the quote the item
already holds at that shop when present, otherwise the `getPriceAtShop` oracle. -/
def priceAtShop (priceO : String → String → ℚ) (cand : String) (item : ShoppingItem) : ℚ :=
  match (item.topOptions.getD []).find? (fun o => o.shop = cand) with
  | some o => o.price
  | none => priceO item.name cand

/-- Per-item savings-gap record: present exactly when the candidate is not the
cheapest shop of the item and the price difference strictly exceeds 0.01. -/
def savingsEntryFor (priceO : String → String → ℚ) (cand : String) (item : ShoppingItem) :
    Option SavingsEntry :=
  let cheap := absCheapest item
  let p := priceAtShop priceO cand item
  if (decide (cand = cheap.1)) = false ∧ p - cheap.2 > 1/100 then
    some ⟨item.name, cheap.2, cheap.1, p, p - cheap.2⟩
  else none

/-- A shop whose every call fails 429 with a daily-quota message. -/
def dailyCall : ℕ → Except ApiError Unit :=
  fun _ => Except.error ⟨some 429, none, "Quota exceeded: you reached the daily limit"⟩

/-- A shop whose every call fails 429 with no daily-quota signal. -/
def tempCall : ℕ → Except ApiError Unit :=
  fun _ => Except.error ⟨some 429, none, "Resource exhausted: too many requests"⟩

/-- Price oracle returning 0 everywhere. -/
def po0 : String → String → ℚ := fun _ _ => 0

/-- Ready item priced 2.50 at ShopX while cheapest elsewhere at 2.00:
delta 0.50 is above the threshold. -/
def gapItemBig : ShoppingItem :=
  { id := "g1", originalName := "jam", name := "jam", emoji := "c", status := Status.ready,
    topOptions := some [⟨"ShopC", 2, "GBP"⟩, ⟨"ShopX", 5/2, "GBP"⟩],
    cheapestShop := some "ShopC", price := some 2, currency := some "GBP" }

/-- Ready item priced 2.005 at ShopX while cheapest elsewhere at 2.00:
delta 0.005 is below the threshold. -/
def gapItemSmall : ShoppingItem :=
  { id := "g2", originalName := "tea", name := "tea", emoji := "c", status := Status.ready,
    topOptions := some [⟨"ShopC", 2, "GBP"⟩, ⟨"ShopX", 2 + 1/200, "GBP"⟩],
    cheapestShop := some "ShopC", price := some 2, currency := some "GBP" }

/-- State of `itemCorrecting` after `continueWithItem` was entered with the empty name. -/
def itemSearchingEmpty : ShoppingItem :=
  { itemCorrecting with name := "", emoji := "c", status := Status.searching, error := none }

/-- State of `itemCorrecting` after `continueWithItem` was entered with name "milk". -/
def itemSearchingMilk : ShoppingItem :=
  { itemCorrecting with name := "milk", emoji := "c", status := Status.searching, error := none }

/-! ## Helper lemmas -/

theorem admitAll_length (gap : ℕ) : ∀ (n : ℕ) (lane : Lane), (admitAll gap n lane).length = n := by
  intro n
  induction n with
  | zero => intro lane; rfl
  | succ m ih => intro lane; simp [admitAll, ih]

theorem admitAll_getD (gap : ℕ) :
    ∀ (n a k : ℕ), k < n → (admitAll gap n ⟨a⟩).getD k 0 = a + (k + 1) * gap := by
  intro n
  induction n with
  | zero => intro a k hk; omega
  | succ m ih =>
    intro a k hk
    match k with
    | 0 => simp [admitAll, throttle]
    | j + 1 =>
      have hj : j < m := by omega
      calc (admitAll gap (m + 1) ⟨a⟩).getD (j + 1) 0
          = (admitAll gap m ⟨a + gap⟩).getD j 0 := by
            simp [admitAll, throttle, List.getD_cons_succ]
        _ = (a + gap) + (j + 1) * gap := ih (a + gap) j hj
        _ = a + (j + 1 + 1) * gap := by ring

theorem admissionTimes_getD (gap n k : ℕ) (hk : k < n) :
    (admissionTimes gap n).getD k 0 = (k + 1) * gap := by
  have := admitAll_getD gap n 0 k hk
  simpa [admissionTimes] using this

/-- C4: with N calls issued at time 0 through the gateway lane with minimum
gap G, the admission schedule has one admission per call, call k is admitted
no earlier than (k-1)·G after the admission of call 0 (it is in fact admitted
exactly k·G after it), and admissions happen in the FIFO order of issue
(timestamps are monotone along the issue order). -/
theorem throttle_admission_schedule (gap n k : ℕ) (hk : k < n) :
    (admissionTimes gap n).length = n ∧
    (admissionTimes gap n).getD 0 0 + (k - 1) * gap ≤ (admissionTimes gap n).getD k 0 ∧
    (∀ j l : ℕ, j ≤ l → l < n →
      (admissionTimes gap n).getD j 0 ≤ (admissionTimes gap n).getD l 0) := by
  have hn0 : 0 < n := Nat.lt_of_le_of_lt (Nat.zero_le k) hk
  refine ⟨by simpa [admissionTimes] using admitAll_length gap n ⟨0⟩, ?_, ?_⟩
  · rw [admissionTimes_getD gap n 0 hn0, admissionTimes_getD gap n k hk]
    have h1 : (0 + 1) * gap + (k - 1) * gap = (1 + (k - 1)) * gap := by ring
    have h2 : 1 + (k - 1) ≤ k + 1 := by omega
    rw [h1]
    exact Nat.mul_le_mul_right gap h2
  · intro j l hjl hl
    rw [admissionTimes_getD gap n j (by omega), admissionTimes_getD gap n l hl]
    exact Nat.mul_le_mul_right gap (by omega)

/-- Witness for `throttle_admission_schedule` at the source constant
`REQUEST_GAP` with four calls. -/
theorem throttle_admission_schedule_witness :
    (admissionTimes REQUEST_GAP 4).length = 4 ∧
    (admissionTimes REQUEST_GAP 4).getD 0 0 + (3 - 1) * REQUEST_GAP ≤
      (admissionTimes REQUEST_GAP 4).getD 3 0 ∧
    (∀ j l : ℕ, j ≤ l → l < 4 →
      (admissionTimes REQUEST_GAP 4).getD j 0 ≤ (admissionTimes REQUEST_GAP 4).getD l 0) :=
  throttle_admission_schedule REQUEST_GAP 4 3 (by omega)

/-- C5: a 429 failure whose message carries a daily-quota signal is surfaced
terminally after a single attempt (no retry, no backoff sleep) with the
daily-limit error; a non-daily 429 is retried exactly once after the fixed
15s delay and, still failing 429 without a daily signal, surfaces the
"wait 60 seconds" error; the two surfaced messages are distinct. -/
theorem rate_limit_daily_terminal {T : Type} (call call2 : ℕ → Except ApiError T)
    (e e1 e2 : ApiError)
    (h1 : call 0 = Except.error e) (h2 : errStatus e = 429)
    (h3 : isDailySignal e.message = true)
    (g1 : call2 0 = Except.error e1) (g2 : errStatus e1 = 429)
    (g3 : isDailySignal e1.message = false)
    (g4 : call2 1 = Except.error e2) (g5 : errStatus e2 = 429)
    (g6 : isDailySignal e2.message = false) :
    handleApiCall call 0 1 = (Except.error ⟨dailyMsg, 429, true, true⟩, 1, []) ∧
    handleApiCall call2 0 1 = (Except.error ⟨tempMsg, 429, true, false⟩, 2, [15000]) ∧
    dailyMsg ≠ tempMsg := by
  refine ⟨?_, ?_, by decide⟩
  · rw [handleApiCall, h1]
    simp [h2, h3]
  · rw [handleApiCall, g1]
    rw [handleApiCall, g4]
    simp [g2, g3, g5, g6]

/-- Witness for `rate_limit_daily_terminal` on two concrete failure streams. -/
theorem rate_limit_daily_terminal_witness :
    handleApiCall dailyCall 0 1 = (Except.error ⟨dailyMsg, 429, true, true⟩, 1, []) ∧
    handleApiCall tempCall 0 1 = (Except.error ⟨tempMsg, 429, true, false⟩, 2, [15000]) ∧
    dailyMsg ≠ tempMsg :=
  rate_limit_daily_terminal dailyCall tempCall _ _ _ rfl (by decide) (by decide)
    rfl (by decide) (by decide) rfl (by decide) (by decide)

theorem firstNumber_isSome :
    ∀ l : List Char, (firstNumber l).isSome = true ↔ ∃ c ∈ l, c.isDigit = true := by
  intro l
  induction l with
  | nil => simp [firstNumber]
  | cons c rest ih =>
    by_cases hd : c.isDigit
    · constructor
      · intro _; exact ⟨c, List.mem_cons_self c rest, hd⟩
      · intro _
        rw [firstNumber, if_pos hd]
        cases List.dropWhile Char.isDigit (c :: rest) with
        | nil => simp
        | cons c2 r2 =>
          by_cases hdot : c2 = '.'
          · subst hdot
            by_cases hfs : (r2.takeWhile Char.isDigit).isEmpty <;> simp [hfs]
          · cases h2 : c2 <;> simp_all
    · rw [firstNumber, if_neg hd, ih]
      constructor
      · intro ⟨x, hx, hxd⟩; exact ⟨x, List.mem_cons_of_mem c hx, hxd⟩
      · intro ⟨x, hx, hxd⟩
        rcases List.mem_cons.mp hx with rfl | hx2
        · exact absurd hxd hd
        · exact ⟨x, hx2, hxd⟩

/-- C7 counterexample: on a Branch Locator response with no `BRANCH:` line the
cited revision returns the raw shop name with " (Nearby)" appended, not the
raw shop name itself. -/
theorem branch_fallback_appends_nearby :
    matchAfterTag "BRANCH:" "" = none ∧
    getStoreBranchDetailsParse "Tesco" "" = ⟨"Tesco (Nearby)", "Nearby"⟩ ∧
    "Tesco (Nearby)" ≠ "Tesco" :=
  ⟨rfl, rfl, by decide⟩

/-- C7 amended: with no `BRANCH:` line the branch label falls back to the raw
shop name followed by " (Nearby)"; with no `DISTANCE:` line the distance text
falls back to the literal "Nearby"; the numeric distance is defined (the first
decimal-or-integer number of the text) exactly when the text holds a digit,
and is `Infinity` (`none`) otherwise, as on "Nearby"; on "3.5 km" it is 3.5. -/
theorem branch_parse_fallbacks (shop text : String) :
    (matchAfterTag "BRANCH:" text = none →
      (getStoreBranchDetailsParse shop text).branchName = shop ++ " (Nearby)") ∧
    (matchAfterTag "DISTANCE:" text = none →
      (getStoreBranchDetailsParse shop text).distance = "Nearby") ∧
    (∀ s : String, (getNumericDistance s).isSome = true ↔ ∃ c ∈ s.data, c.isDigit = true) ∧
    (∀ s : String, (∀ c ∈ s.data, c.isDigit = false) → getNumericDistance s = none) ∧
    getNumericDistance "3.5 km" = some (7/2) ∧
    getNumericDistance "Nearby" = none := by
  refine ⟨?_, ?_, ?_, ?_, by with_unfolding_all rfl, rfl⟩
  · intro h; simp [getStoreBranchDetailsParse, h]
  · intro h; simp [getStoreBranchDetailsParse, h]
  · intro s; exact firstNumber_isSome s.data
  · intro s h
    have := firstNumber_isSome s.data
    rcases hv : firstNumber s.data with _ | v
    · exact hv
    · rw [hv] at this
      simp only [Option.isSome_some, true_iff] at this
      obtain ⟨c, hc, hcd⟩ := this
      exact absurd hcd (by simp [h c hc])

/-- Witness for `branch_parse_fallbacks` on an empty response text. -/
theorem branch_parse_fallbacks_witness :
    (getStoreBranchDetailsParse "Tesco" "").branchName = "Tesco" ++ " (Nearby)" ∧
    (getStoreBranchDetailsParse "Tesco" "").distance = "Nearby" ∧
    getNumericDistance "Nearby" = none :=
  ⟨(branch_parse_fallbacks "Tesco" "").1 rfl, (branch_parse_fallbacks "Tesco" "").2.1 rfl,
    (branch_parse_fallbacks "Tesco" "").2.2.2.2.2⟩

/-- C6 counterexample: on a response holding two separate well-formed array
fragments, the greedy `/\[.*\]/s` extraction spans from the first `[` to the
last `]`, the span is not valid JSON, and the function returns the empty list
— it does not extract and parse the first well-formed fragment `[1]`. -/
theorem price_parse_not_first_fragment :
    extractedFragment "A [1] B [2] C" = "[1] B [2]" ∧
    jsonParse "[1]" = some (Json.arr [Json.num 1]) ∧
    findTopPriceOptionsParse "A [1] B [2] C" = Json.arr [] ∧
    Json.arr [Json.num 1] ≠ Json.arr [] := by
  refine ⟨rfl, by with_unfolding_all rfl, by with_unfolding_all rfl, by simp⟩

/-- C6 amended: the parser hands `JSON.parse` the span from the first `[` to
the last `]` of the response (the raw text when there is no such span, the
literal "[]" for an empty response); a successfully parsed span is returned
as is — which recovers a single structured array wrapped in prose — and any
parse failure or empty response yields the empty list instead of an error. -/
theorem price_parse_span_and_swallow (text : String) :
    (jsonParse (extractedFragment text) = none → findTopPriceOptionsParse text = Json.arr []) ∧
    (∀ v : Json, jsonParse (extractedFragment text) = some v →
      findTopPriceOptionsParse text = v) ∧
    extractedFragment "" = "[]" ∧
    findTopPriceOptionsParse "" = Json.arr [] ∧
    findTopPriceOptionsParse "Sure, here are the prices: [2.5, 3] - enjoy" =
      Json.arr [Json.num (5/2), Json.num 3] := by
  refine ⟨?_, ?_, rfl, by with_unfolding_all rfl, by with_unfolding_all rfl⟩
  · intro h; simp [findTopPriceOptionsParse, h]
  · intro v h; simp [findTopPriceOptionsParse, h]

/-- Witness for `price_parse_span_and_swallow` on a prose-wrapped response. -/
theorem price_parse_span_and_swallow_witness :
    findTopPriceOptionsParse "Sure, here are the prices: [2.5, 3] - enjoy" =
      Json.arr [Json.num (5/2), Json.num 3] ∧
    findTopPriceOptionsParse "no structured content here" = Json.arr [] :=
  ⟨(price_parse_span_and_swallow "x").2.2.2.2,
    (price_parse_span_and_swallow "no structured content here").1
      (by with_unfolding_all rfl)⟩

theorem itemStep_name {E : String → Prop} (hE : ∀ n, E n → n ≠ "")
    {i i' : ShoppingItem} (h : ItemStep E i i') (hn : i.name ≠ "") : i'.name ≠ "" := by
  cases h with
  | startProcess h => exact hn
  | refineVague h r hv ho hEr => exact hE r.name hEr
  | refineFail h msg => exact hn
  | startSearch h n em hEn => exact hE n hEn
  | priceOk h quotes => exact hn
  | readyNoLoc h => exact hn
  | priceFail h msg => exact hn

/-- C9 counterexample: the code carries an item from `correcting` straight to
`error` when resolution fails — an edge absent from the claimed state machine
— and an item can reach `ready` with an empty canonical name when the
environment delivers one (the code never validates resolved names). -/
theorem item_step_outside_claimed_edges :
    ItemStep (fun _ => True) itemCorrecting itemFailed ∧
    Relation.ReflTransGen (ItemStep (fun _ => True)) itemPendingMilk itemFailed ∧
    itemCorrecting.status = Status.correcting ∧ itemFailed.status = Status.error ∧
    ¬ claimEdge itemCorrecting.status itemFailed.status ∧
    Relation.ReflTransGen (ItemStep (fun _ => True)) itemPendingMilk
      { itemSearchingEmpty with status := Status.ready } ∧
    ({ itemSearchingEmpty with status := Status.ready }).status = Status.ready ∧
    ({ itemSearchingEmpty with status := Status.ready }).name = "" := by
  have s1 : ItemStep (fun _ => True) itemPendingMilk itemCorrecting :=
    ItemStep.startProcess itemPendingMilk (Or.inl rfl)
  have s2 : ItemStep (fun _ => True) itemCorrecting itemFailed :=
    ItemStep.refineFail itemCorrecting rfl "API Request failed. Try again."
  have s3 : ItemStep (fun _ => True) itemCorrecting itemSearchingEmpty :=
    ItemStep.startSearch itemCorrecting (Or.inl rfl) "" "c" trivial
  have s4 : ItemStep (fun _ => True) itemSearchingEmpty
      { itemSearchingEmpty with status := Status.ready } :=
    ItemStep.readyNoLoc itemSearchingEmpty rfl
  refine ⟨s2, Relation.ReflTransGen.head s1 (Relation.ReflTransGen.single s2), rfl, rfl,
    by decide, Relation.ReflTransGen.head s1 (Relation.ReflTransGen.head s3
      (Relation.ReflTransGen.single s4)), rfl, rfl⟩

/-- C9 amended: every status change of the item pipeline follows the claimed
state-machine edges extended with `correcting → error` (taken when resolution
itself fails); and provided every name the environment delivers (resolver
results and user picks) is non-empty, an item whose name is non-empty keeps a
non-empty name along every run — in particular no such item is `ready` with an
empty canonical name. -/
theorem item_transitions_amended :
    (∀ (E : String → Prop) (i i' : ShoppingItem), ItemStep E i i' →
      extEdge i.status i'.status) ∧
    (∀ E : String → Prop, (∀ n, E n → n ≠ "") → ∀ i₀ i : ShoppingItem, i₀.name ≠ "" →
      Relation.ReflTransGen (ItemStep E) i₀ i → i.status = Status.ready → i.name ≠ "") := by
  constructor
  · intro E i i' h
    cases h with
    | startProcess h => rcases h with h | h <;> simp [extEdge, claimEdge, h]
    | refineVague h r hv ho hE => simp [extEdge, claimEdge, h]
    | refineFail h msg => simp [extEdge, claimEdge, h]
    | startSearch h n em hE => rcases h with h | h <;> simp [extEdge, claimEdge, h]
    | priceOk h quotes => simp [extEdge, claimEdge, h]
    | readyNoLoc h => simp [extEdge, claimEdge, h]
    | priceFail h msg => simp [extEdge, claimEdge, h]
  · intro E hE i₀ i h0 hchain
    have inv : i.name ≠ "" := by
      induction hchain with
      | refl => exact h0
      | tail _hab hbc ih => exact itemStep_name hE hbc ih
    exact fun _ => inv

/-- Witness for `item_transitions_amended`: the `correcting → error` step of a
concrete run follows an extended edge, and a concrete ready item with
non-empty name under a non-empty-name environment. -/
theorem item_transitions_amended_witness :
    extEdge itemCorrecting.status itemFailed.status ∧ scItem.name ≠ "" :=
  ⟨item_transitions_amended.1 (fun _ => True) itemCorrecting itemFailed
      (ItemStep.refineFail itemCorrecting rfl "API Request failed. Try again."),
    item_transitions_amended.2 (fun n => n ≠ "") (fun _ h => h) scItem scItem
      (by decide) Relation.ReflTransGen.refl rfl⟩

/-- C10: from `searching`, a successful price sourcing with an empty quote
list still moves the item to `ready`, displaying shop "Unknown" and price 0
with `topOptions` set to the empty list; with no location available the item
moves to `ready` with `topOptions` untouched; hence a reachable `ready` item
need not carry a non-empty quote list (here: no quote list at all). -/
theorem ready_without_quotes :
    (∀ (E : String → Prop) (i : ShoppingItem), i.status = Status.searching →
      ItemStep E i { i with
        topOptions := some []
        cheapestShop := some "Unknown"
        price := some 0
        currency := some "Â£"
        status := Status.ready }) ∧
    (∀ (E : String → Prop) (i : ShoppingItem), i.status = Status.searching →
      ItemStep E i { i with status := Status.ready }) ∧
    (∃ i : ShoppingItem, Relation.ReflTransGen (ItemStep (fun _ => True)) itemPendingMilk i ∧
      i.status = Status.ready ∧ i.topOptions = none) := by
  refine ⟨fun E i h => ItemStep.priceOk i h [], fun E i h => ItemStep.readyNoLoc i h, ?_⟩
  refine ⟨{ itemSearchingMilk with status := Status.ready }, ?_, rfl, rfl⟩
  have s1 : ItemStep (fun _ => True) itemPendingMilk itemCorrecting :=
    ItemStep.startProcess itemPendingMilk (Or.inl rfl)
  have s2 : ItemStep (fun _ => True) itemCorrecting itemSearchingMilk :=
    ItemStep.startSearch itemCorrecting (Or.inl rfl) "milk" "c" trivial
  have s3 : ItemStep (fun _ => True) itemSearchingMilk
      { itemSearchingMilk with status := Status.ready } :=
    ItemStep.readyNoLoc itemSearchingMilk rfl
  exact Relation.ReflTransGen.head s1 (Relation.ReflTransGen.head s2
    (Relation.ReflTransGen.single s3))

/-- Witness for `ready_without_quotes` at a concrete searching item. -/
theorem ready_without_quotes_witness :
    ItemStep (fun _ => True) itemSearchingMilk { itemSearchingMilk with
      topOptions := some []
      cheapestShop := some "Unknown"
      price := some 0
      currency := some "Â£"
      status := Status.ready } :=
  ready_without_quotes.1 (fun _ => True) itemSearchingMilk rfl

theorem calculateSummary_completed (branchO : String → BranchInfo)
    (priceO : String → String → ℚ) (items : List ShoppingItem) (maxD : ℚ)
    (h : (items.filter (fun i => decide (i.status = Status.ready))).length ≠ 0) :
    (calculateSummary branchO priceO items maxD).2.2 = true := by
  unfold calculateSummary
  simp only [if_neg h]

/-- C3: when two summary requests compute equal ranking fingerprints (same
ready-item identities and names, both locations rounded to 4 decimal places,
max distance, unit system), the second request is answered from the
single-slot cache: it returns the very strategy list of the first request and
issues zero external calls (no Branch Locator and no Price Sourcing
invocation), whatever its own oracles would answer. The first request is made
with at least one ready item (the UI enables the summary button only then). -/
theorem cache_serves_equal_fingerprint
    (bo1 bo2 : String → BranchInfo) (po1 po2 : String → String → ℚ) (st : CacheState)
    (items1 items2 : List ShoppingItem) (loc1 loc2 man1 man2 : Option (ℚ × ℚ))
    (maxD1 maxD2 : ℚ) (u1 u2 : UnitSystem)
    (hfp : currentFingerprint items1 loc1 man1 maxD1 u1 =
      currentFingerprint items2 loc2 man2 maxD2 u2)
    (hready : (items1.filter (fun i => decide (i.status = Status.ready))).length ≠ 0) :
    (requestSummary bo2 po2 (requestSummary bo1 po1 st items1 loc1 man1 maxD1 u1).2.2
        items2 loc2 man2 maxD2 u2).1 =
      (requestSummary bo1 po1 st items1 loc1 man1 maxD1 u1).1 ∧
    (requestSummary bo2 po2 (requestSummary bo1 po1 st items1 loc1 man1 maxD1 u1).2.2
        items2 loc2 man2 maxD2 u2).2.1 = 0 := by
  have hc := calculateSummary_completed bo1 po1 items1 maxD1 hready
  unfold requestSummary
  rw [← hfp]
  by_cases hl : st.lastFp = some (currentFingerprint items1 loc1 man1 maxD1 u1)
  · rcases hcache : st.cache with _ | d
    · simp only [if_pos hl, hcache, hc]
      simp [hl]
    · simp [if_pos hl, hcache]
  · simp only [if_neg hl]
    simp [hc]

/-- Witness for `cache_serves_equal_fingerprint` on a concrete repeated
request. -/
theorem cache_serves_equal_fingerprint_witness :
    (requestSummary scBranchO scPriceO
        (requestSummary scBranchO scPriceO ⟨none, none⟩ [scItem] (some (1, 2)) none 5
          UnitSystem.metric).2.2
        [scItem] (some (1, 2)) none 5 UnitSystem.metric).1 =
      (requestSummary scBranchO scPriceO ⟨none, none⟩ [scItem] (some (1, 2)) none 5
        UnitSystem.metric).1 ∧
    (requestSummary scBranchO scPriceO
        (requestSummary scBranchO scPriceO ⟨none, none⟩ [scItem] (some (1, 2)) none 5
          UnitSystem.metric).2.2
        [scItem] (some (1, 2)) none 5 UnitSystem.metric).2.1 = 0 :=
  cache_serves_equal_fingerprint scBranchO scBranchO scPriceO scPriceO ⟨none, none⟩
    [scItem] [scItem] (some (1, 2)) (some (1, 2)) none none 5 5
    UnitSystem.metric UnitSystem.metric rfl (by decide)

theorem oltB_irrefl (a : Option ℚ) : oltB a a = false := by
  cases a <;> simp [oltB]

theorem oltB_asymm {a b : Option ℚ} (h : oltB a b = true) : oltB b a = false := by
  cases a <;> cases b <;> simp_all [oltB]
  linarith

theorem oltB_trans {a b c : Option ℚ} (h1 : oltB a b = true) (h2 : oltB b c = true) :
    oltB a c = true := by
  cases a <;> cases b <;> cases c <;> simp_all [oltB]
  linarith

theorem oltB_cross {a b c : Option ℚ} (h1 : oltB a b = true) (h2 : oltB c b = false) :
    oltB a c = true := by
  cases a <;> cases b <;> cases c <;> simp_all [oltB]
  linarith

theorem oltB_some_none {q : ℚ} : oltB (some q) none = true := rfl

/-- Full characterization of the strict-minimum scan: either nothing ever beat
`best` (and the initial `bestIdx` is returned), or the scan returns the
position of the first element attaining the strict minimum among those that
beat `best` — an element no other element beats, which strictly beats every
element before it. -/
theorem scanMin_spec {α : Type} (f : α → Option ℚ) (l : List α) :
    ∀ (idx : ℕ) (best : Option ℚ) (bestIdx : Option ℕ),
    (scanMin f l idx best bestIdx = bestIdx ∧
      ∀ j (hj : j < l.length), oltB (f l[j]) best = false) ∨
    (∃ k, ∃ hk : k < l.length, scanMin f l idx best bestIdx = some (idx + k) ∧
      oltB (f l[k]) best = true ∧
      (∀ j (hj : j < l.length), oltB (f l[j]) (f l[k]) = false) ∧
      (∀ j (hj : j < l.length), j < k → oltB (f l[k]) (f l[j]) = true)) := by
  induction l with
  | nil =>
    intro idx best bestIdx
    left
    exact ⟨rfl, fun j hj => absurd hj (by simp)⟩
  | cons x rest ih =>
    intro idx best bestIdx
    by_cases hx : oltB (f x) best = true
    · rcases ih (idx + 1) (f x) (some idx) with ⟨heq, hall⟩ | ⟨k, hk, heq, hbeat, hmin, hfirst⟩
      · right
        refine ⟨0, by simp, ?_, ?_, ?_, ?_⟩
        · rw [scanMin, if_pos hx]; simpa using heq
        · simpa using hx
        · intro j hj
          match j with
          | 0 => simpa using oltB_irrefl (f x)
          | j' + 1 => simpa using hall j' (by simpa using hj)
        · intro j hj hj0; omega
      · right
        refine ⟨k + 1, by simpa using hk, ?_, ?_, ?_, ?_⟩
        · rw [scanMin, if_pos hx, heq]; congr 1; omega
        · exact oltB_trans (by simpa using hbeat) hx
        · intro j hj
          match j with
          | 0 =>
            simp only [List.getElem_cons_zero, List.getElem_cons_succ]
            exact oltB_asymm (by simpa using hbeat)
          | j' + 1 =>
            simpa using hmin j' (by simpa using hj)
        · intro j hj hjk
          match j with
          | 0 =>
            simp only [List.getElem_cons_succ, List.getElem_cons_zero]
            exact by simpa using hbeat
          | j' + 1 =>
            simpa using hfirst j' (by simpa using hj) (by omega)
    · rcases ih (idx + 1) best bestIdx with ⟨heq, hall⟩ | ⟨k, hk, heq, hbeat, hmin, hfirst⟩
      · left
        refine ⟨?_, ?_⟩
        · rw [scanMin, if_neg hx, heq]
        · intro j hj
          match j with
          | 0 => simpa using (Bool.eq_false_iff.mpr hx)
          | j' + 1 => simpa using hall j' (by simpa using hj)
      · right
        have hxf : oltB (f x) best = false := Bool.eq_false_iff.mpr hx
        refine ⟨k + 1, by simpa using hk, ?_, ?_, ?_, ?_⟩
        · rw [scanMin, if_neg hx, heq]; congr 1; omega
        · exact by simpa using hbeat
        · intro j hj
          match j with
          | 0 =>
            simp only [List.getElem_cons_zero, List.getElem_cons_succ]
            by_contra hcon
            have hcon' : oltB (f x) (f rest[k]) = true := by
              revert hcon; cases hv : oltB (f x) (f rest[k]) <;> simp
            have := oltB_trans hcon' (by simpa using hbeat)
            rw [this] at hxf
            exact Bool.true_eq_false.mp hxf
          | j' + 1 =>
            simpa using hmin j' (by simpa using hj)
        · intro j hj hjk
          match j with
          | 0 =>
            simp only [List.getElem_cons_succ, List.getElem_cons_zero]
            exact oltB_cross (by simpa using hbeat) hxf
          | j' + 1 =>
            simpa using hfirst j' (by simpa using hj) (by omega)

theorem setFlags_length (cIdx qIdx : Option ℕ) :
    ∀ (i : ℕ) (l : List RankedShop), (setFlags cIdx qIdx i l).length = l.length := by
  intro i l
  induction l generalizing i with
  | nil => rfl
  | cons s rest ih => simp [setFlags, ih]

theorem setFlags_getElem (cIdx qIdx : Option ℕ) :
    ∀ (l : List RankedShop) (i j : ℕ) (hj : j < l.length)
      (hj2 : j < (setFlags cIdx qIdx i l).length),
    (setFlags cIdx qIdx i l)[j] =
      { l[j] with
        isClosest := if cIdx = some (i + j) then true else (l[j]).isClosest
        isCheapest := if qIdx = some (i + j) then true else (l[j]).isCheapest } := by
  intro l
  induction l with
  | nil => intro i j hj hj2; exact absurd hj (by simp)
  | cons s rest ih =>
    intro i j hj hj2
    match j with
    | 0 => simp [setFlags]
    | j' + 1 =>
      have := ih (i + 1) j' (by simpa using hj)
        (by rw [setFlags_length]; simpa using hj)
      simp only [setFlags, List.getElem_cons_succ]
      rw [this]
      have harith : i + 1 + j' = i + (j' + 1) := by omega
      rw [harith]

theorem flagStrategies_length (l : List RankedShop) :
    (flagStrategies l).length = l.length := by
  unfold flagStrategies
  by_cases h : 0 < l.length
  · rw [if_pos h, setFlags_length]
  · rw [if_neg h]

theorem flagStrategies_getElem (l : List RankedShop) (j : ℕ) (hj : j < l.length)
    (hj2 : j < (flagStrategies l).length) :
    (flagStrategies l)[j] =
      { l[j] with
        isClosest := if scanMin (fun s => s.numericDistance) l 0 none none = some j then true
          else (l[j]).isClosest
        isCheapest := if scanMin (fun s => some s.totalPrice) l 0 none none = some j then true
          else (l[j]).isCheapest } := by
  have h0 : 0 < l.length := Nat.lt_of_le_of_lt (Nat.zero_le j) hj
  have := setFlags_getElem (scanMin (fun s => s.numericDistance) l 0 none none)
    (scanMin (fun s => some s.totalPrice) l 0 none none) l 0 j hj
    (by rw [setFlags_length]; exact hj)
  simp only [Nat.zero_add] at this
  simp only [flagStrategies, if_pos h0]
  exact this

theorem calculateSummary_fst (branchO : String → BranchInfo) (priceO : String → String → ℚ)
    (items : List ShoppingItem) (maxD : ℚ) :
    (calculateSummary branchO priceO items maxD).1 =
      if (items.filter (fun i => decide (i.status = Status.ready))).length = 0 then []
      else flagStrategies (rankedBase branchO priceO items maxD) := by
  by_cases h : (items.filter (fun i => decide (i.status = Status.ready))).length = 0
  · simp [calculateSummary, h]
  · simp [calculateSummary, rankedBase, h]

theorem rankedBase_flags_false (branchO : String → BranchInfo) (priceO : String → String → ℚ)
    (items : List ShoppingItem) (maxD : ℚ) :
    ∀ s ∈ rankedBase branchO priceO items maxD, s.isClosest = false ∧ s.isCheapest = false := by
  intro s hs
  unfold rankedBase at hs
  have hs2 := List.Sublist.mem hs (List.take_sublist _ _)
  rw [(List.perm_insertionSort rankRel _).mem_iff] at hs2
  rw [List.mem_map] at hs2
  obtain ⟨p, _hp, hps⟩ := hs2
  rw [List.mem_map] at _hp
  obtain ⟨cand, _hcand, hcp⟩ := _hp
  rw [← hps, ← hcp]
  exact ⟨rfl, rfl⟩

theorem rankedBase_sorted (branchO : String → BranchInfo) (priceO : String → String → ℚ)
    (items : List ShoppingItem) (maxD : ℚ) :
    (rankedBase branchO priceO items maxD).Pairwise rankRel :=
  List.Pairwise.sublist (List.take_sublist _ _) (List.sorted_insertionSort rankRel _)

theorem rankedBase_length_le (branchO : String → BranchInfo) (priceO : String → String → ℚ)
    (items : List ShoppingItem) (maxD : ℚ) :
    (rankedBase branchO priceO items maxD).length ≤ 3 := by
  unfold rankedBase
  simp only [List.length_take]
  exact min_le_left _ _

/-- C1: every ranking run returns at most 3 strategies, ordered so that a
strategy preceding another is within the distance preference whenever the
later one is, and has the smaller-or-equal total price when both have the same
preference status; in the concrete scenario with max distance 5, ShopA at
10 km with total 3.00 and ShopB at 3 km with total 4.00, ShopB ranks first
despite its higher price. -/
theorem ranking_sorted_truncated (branchO : String → BranchInfo)
    (priceO : String → String → ℚ) (items : List ShoppingItem) (maxD : ℚ) :
    (calculateSummary branchO priceO items maxD).1.length ≤ 3 ∧
    (calculateSummary branchO priceO items maxD).1.Pairwise (fun a b =>
      (b.isWithinPreference = true → a.isWithinPreference = true) ∧
      (a.isWithinPreference = b.isWithinPreference → a.totalPrice ≤ b.totalPrice)) ∧
    (calculateSummary scBranchO scPriceO [scItem] 5).1.map (fun s => s.shopName) =
      ["ShopB", "ShopA"] ∧
    (calculateSummary scBranchO scPriceO [scItem] 5).1.map (fun s => s.totalPrice) = [4, 3] := by
  refine ⟨?_, ?_, by with_unfolding_all rfl, by with_unfolding_all rfl⟩
  · rw [calculateSummary_fst]
    split
    · simp
    · rw [flagStrategies_length]
      exact rankedBase_length_le branchO priceO items maxD
  · rw [calculateSummary_fst]
    split
    · simp
    · have hsor := rankedBase_sorted branchO priceO items maxD
      rw [List.pairwise_iff_getElem] at hsor ⊢
      intro i j hi hj hij
      have hil := hi
      have hjl := hj
      rw [flagStrategies_length] at hil hjl
      rw [flagStrategies_getElem _ i hil hi, flagStrategies_getElem _ j hjl hj]
      have hrel := hsor i j hil hjl hij
      rcases hrel with ⟨h1, h2⟩ | ⟨h1, h2⟩
      · refine ⟨fun hb => ?_, fun hab => ?_⟩
        · have hb' : (rankedBase branchO priceO items maxD)[j].isWithinPreference = true := hb
          rw [h2] at hb'
          exact absurd hb' (by simp)
        · have hab' : (rankedBase branchO priceO items maxD)[i].isWithinPreference =
            (rankedBase branchO priceO items maxD)[j].isWithinPreference := hab
          rw [h1, h2] at hab'
          exact absurd hab' (by simp)
      · refine ⟨fun hb => ?_, fun _ => h2⟩
        have hb' : (rankedBase branchO priceO items maxD)[j].isWithinPreference = true := hb
        show (rankedBase branchO priceO items maxD)[i].isWithinPreference = true
        rw [h1]
        exact hb'

/-- Witness for `ranking_sorted_truncated` on the scenario-C run. -/
theorem ranking_sorted_truncated_witness :
    (calculateSummary scBranchO scPriceO [scItem] 5).1.length ≤ 3 ∧
    (calculateSummary scBranchO scPriceO [scItem] 5).1.map (fun s => s.shopName) =
      ["ShopB", "ShopA"] :=
  ⟨(ranking_sorted_truncated scBranchO scPriceO [scItem] 5).1,
    (ranking_sorted_truncated scBranchO scPriceO [scItem] 5).2.2.1⟩

theorem flagStrategies_isClosest_iff (l : List RankedShop)
    (hl : ∀ s ∈ l, s.isClosest = false) (j : ℕ) (hj : j < (flagStrategies l).length) :
    ((flagStrategies l)[j].isClosest = true ↔
      scanMin (fun s => s.numericDistance) l 0 none none = some j) := by
  have hjl : j < l.length := by rw [← flagStrategies_length l]; exact hj
  rw [flagStrategies_getElem l j hjl hj]
  by_cases hc : scanMin (fun s => s.numericDistance) l 0 none none = some j
  · simp [hc]
  · simp only [if_neg hc]
    rw [hl (l[j]) (List.getElem_mem hjl)]
    simp [hc]

theorem flagStrategies_isCheapest_iff (l : List RankedShop)
    (hl : ∀ s ∈ l, s.isCheapest = false) (j : ℕ) (hj : j < (flagStrategies l).length) :
    ((flagStrategies l)[j].isCheapest = true ↔
      scanMin (fun s => some s.totalPrice) l 0 none none = some j) := by
  have hjl : j < l.length := by rw [← flagStrategies_length l]; exact hj
  rw [flagStrategies_getElem l j hjl hj]
  by_cases hc : scanMin (fun s => some s.totalPrice) l 0 none none = some j
  · simp [hc]
  · simp only [if_neg hc]
    rw [hl (l[j]) (List.getElem_mem hjl)]
    simp [hc]

theorem flagStrategies_totalPrice (l : List RankedShop) (j : ℕ) (hj : j < l.length)
    (hj2 : j < (flagStrategies l).length) :
    ((flagStrategies l)[j]).totalPrice = l[j].totalPrice := by
  rw [flagStrategies_getElem l j hj hj2]

theorem flagStrategies_numericDistance (l : List RankedShop) (j : ℕ) (hj : j < l.length)
    (hj2 : j < (flagStrategies l).length) :
    ((flagStrategies l)[j]).numericDistance = l[j].numericDistance := by
  rw [flagStrategies_getElem l j hj hj2]

theorem flagStrategies_spec (l : List RankedShop)
    (hclosF : ∀ s ∈ l, s.isClosest = false) (hcheapF : ∀ s ∈ l, s.isCheapest = false) :
    (∀ i j (hi : i < (flagStrategies l).length) (hj : j < (flagStrategies l).length),
      (flagStrategies l)[i].isClosest = true → (flagStrategies l)[j].isClosest = true → i = j) ∧
    (∀ i j (hi : i < (flagStrategies l).length) (hj : j < (flagStrategies l).length),
      (flagStrategies l)[i].isCheapest = true → (flagStrategies l)[j].isCheapest = true →
        i = j) ∧
    (flagStrategies l ≠ [] → ∃ k, ∃ hk : k < (flagStrategies l).length,
      (flagStrategies l)[k].isCheapest = true ∧
      (∀ j (hj : j < (flagStrategies l).length),
        (flagStrategies l)[k].totalPrice ≤ (flagStrategies l)[j].totalPrice) ∧
      (∀ j (hj : j < (flagStrategies l).length), j < k →
        (flagStrategies l)[k].totalPrice < (flagStrategies l)[j].totalPrice)) ∧
    ((∃ i, ∃ hi : i < (flagStrategies l).length,
        (flagStrategies l)[i].numericDistance ≠ none) →
      ∃ k, ∃ hk : k < (flagStrategies l).length,
      (flagStrategies l)[k].isClosest = true ∧
      (∀ j (hj : j < (flagStrategies l).length),
        oltB (flagStrategies l)[j].numericDistance (flagStrategies l)[k].numericDistance =
          false) ∧
      (∀ j (hj : j < (flagStrategies l).length), j < k →
        oltB (flagStrategies l)[k].numericDistance (flagStrategies l)[j].numericDistance =
          true)) ∧
    ((∀ i (hi : i < (flagStrategies l).length),
        (flagStrategies l)[i].numericDistance = none) →
      ∀ i (hi : i < (flagStrategies l).length), (flagStrategies l)[i].isClosest = false) := by
  have hlen : (flagStrategies l).length = l.length := flagStrategies_length l
  refine ⟨?_, ?_, ?_, ?_, ?_⟩
  · intro i j hi hj h1 h2
    have e1 := (flagStrategies_isClosest_iff l hclosF i hi).mp h1
    have e2 := (flagStrategies_isClosest_iff l hclosF j hj).mp h2
    exact Option.some.inj (e1.symm.trans e2)
  · intro i j hi hj h1 h2
    have e1 := (flagStrategies_isCheapest_iff l hcheapF i hi).mp h1
    have e2 := (flagStrategies_isCheapest_iff l hcheapF j hj).mp h2
    exact Option.some.inj (e1.symm.trans e2)
  · intro hne
    have hpos : 0 < l.length := by
      rw [← hlen]
      exact List.length_pos.mpr hne
    rcases scanMin_spec (fun s => some s.totalPrice) l 0 none none with
      ⟨_heq, hall⟩ | ⟨k, hk, heq, _hbeat, hmin, hfirst⟩
    · exact absurd (hall 0 hpos) (by simp [oltB])
    · refine ⟨k, by omega, ?_, ?_, ?_⟩
      · exact (flagStrategies_isCheapest_iff l hcheapF k (by omega)).mpr (by simpa using heq)
      · intro j hj
        rw [flagStrategies_totalPrice l k hk (by omega),
          flagStrategies_totalPrice l j (by omega) hj]
        have := hmin j (by omega)
        simp only [oltB, decide_eq_false_iff_not, not_lt] at this
        exact this
      · intro j hj hjk
        rw [flagStrategies_totalPrice l k hk (by omega),
          flagStrategies_totalPrice l j (by omega) hj]
        have := hfirst j (by omega) hjk
        simpa [oltB] using this
  · intro ⟨i, hi, hne⟩
    rw [flagStrategies_numericDistance l i (by omega) hi] at hne
    rcases scanMin_spec (fun s => s.numericDistance) l 0 none none with
      ⟨_heq, hall⟩ | ⟨k, hk, heq, _hbeat, hmin, hfirst⟩
    · exfalso
      have hz := hall i (by omega)
      rcases hd : l[i].numericDistance with _ | q
      · exact hne (by rw [← hd])
      · rw [hd] at hz
        simp [oltB] at hz
    · refine ⟨k, by omega, ?_, ?_, ?_⟩
      · exact (flagStrategies_isClosest_iff l hclosF k (by omega)).mpr (by simpa using heq)
      · intro j hj
        rw [flagStrategies_numericDistance l k hk (by omega),
          flagStrategies_numericDistance l j (by omega) hj]
        exact hmin j (by omega)
      · intro j hj hjk
        rw [flagStrategies_numericDistance l k hk (by omega),
          flagStrategies_numericDistance l j (by omega) hj]
        exact hfirst j (by omega) hjk
  · intro hall i hi
    rcases scanMin_spec (fun s => s.numericDistance) l 0 none none with
      ⟨heq, _⟩ | ⟨k, hk, _heq, hbeat, _, _⟩
    · have := flagStrategies_isClosest_iff l hclosF i hi
      rw [heq] at this
      simpa using this
    · exfalso
      have hkd := hall k (by omega)
      rw [flagStrategies_numericDistance l k hk (by omega)] at hkd
      rw [hkd] at hbeat
      simp [oltB] at hbeat

/-- C2 counterexample: a non-empty ranking run in which the single retained
strategy has minimum numeric distance (it is the only one, with distance
`Infinity` since the branch text "Nearby" holds no number) and still no
strategy is flagged closest — the strict-minimum scan never beats the initial
`Infinity`. -/
theorem no_closest_flag_when_distance_unparsed :
    (calculateSummary nbBranchO po0 [nbItem] 10).1 ≠ [] ∧
    (∀ s ∈ (calculateSummary nbBranchO po0 [nbItem] 10).1, s.numericDistance = none) ∧
    (∀ s ∈ (calculateSummary nbBranchO po0 [nbItem] 10).1, s.isClosest = false) := by
  with_unfolding_all exact
    ⟨of_decide_eq_true rfl, of_decide_eq_true rfl, of_decide_eq_true rfl⟩

/-- C2 amended: in every ranking run at most one retained strategy is flagged
closest and at most one cheapest; every non-empty run flags exactly one
cheapest strategy, namely the first one attaining the minimum total price
(strictly cheaper than every strategy before it); whenever some retained
strategy has a finite numeric distance, exactly one strategy is flagged
closest, namely the first one attaining the minimum distance — but when every
retained strategy has distance `Infinity`, no strategy at all is flagged
closest; a single strategy may hold both flags. -/
theorem flagging_first_minimum (branchO : String → BranchInfo)
    (priceO : String → String → ℚ) (items : List ShoppingItem) (maxD : ℚ)
    (out : List RankedShop) (hout : out = (calculateSummary branchO priceO items maxD).1) :
    (∀ i j (hi : i < out.length) (hj : j < out.length),
      out[i].isClosest = true → out[j].isClosest = true → i = j) ∧
    (∀ i j (hi : i < out.length) (hj : j < out.length),
      out[i].isCheapest = true → out[j].isCheapest = true → i = j) ∧
    (out ≠ [] → ∃ k, ∃ hk : k < out.length, out[k].isCheapest = true ∧
      (∀ j (hj : j < out.length), out[k].totalPrice ≤ out[j].totalPrice) ∧
      (∀ j (hj : j < out.length), j < k → out[k].totalPrice < out[j].totalPrice)) ∧
    ((∃ i, ∃ hi : i < out.length, out[i].numericDistance ≠ none) →
      ∃ k, ∃ hk : k < out.length, out[k].isClosest = true ∧
      (∀ j (hj : j < out.length), oltB out[j].numericDistance out[k].numericDistance = false) ∧
      (∀ j (hj : j < out.length), j < k →
        oltB out[k].numericDistance out[j].numericDistance = true)) ∧
    ((∀ i (hi : i < out.length), out[i].numericDistance = none) →
      ∀ i (hi : i < out.length), out[i].isClosest = false) ∧
    (∃ s ∈ (calculateSummary fdBranchO po0 [nbItem] 10).1,
      s.isClosest = true ∧ s.isCheapest = true) := by
  have hboth : ∃ s ∈ (calculateSummary fdBranchO po0 [nbItem] 10).1,
      s.isClosest = true ∧ s.isCheapest = true := by
    with_unfolding_all exact of_decide_eq_true rfl
  rw [calculateSummary_fst] at hout
  by_cases hz : (items.filter (fun i => decide (i.status = Status.ready))).length = 0
  · rw [if_pos hz] at hout
    subst hout
    refine ⟨?_, ?_, ?_, ?_, ?_, hboth⟩
    · intro i j hi hj; exact absurd hi (by simp)
    · intro i j hi hj; exact absurd hi (by simp)
    · intro hne; exact absurd rfl hne
    · intro ⟨i, hi, _⟩; exact absurd hi (by simp)
    · intro _ i hi; exact absurd hi (by simp)
  · rw [if_neg hz] at hout
    subst hout
    have hspec := flagStrategies_spec (rankedBase branchO priceO items maxD)
      (fun s hs => (rankedBase_flags_false branchO priceO items maxD s hs).1)
      (fun s hs => (rankedBase_flags_false branchO priceO items maxD s hs).2)
    exact ⟨hspec.1, hspec.2.1, hspec.2.2.1, hspec.2.2.2.1, hspec.2.2.2.2, hboth⟩

/-- Witness for `flagging_first_minimum` on a concrete run with one strategy
at a finite distance: its cheapest flag sits on the first minimum. -/
theorem flagging_first_minimum_witness :
    ∃ k, ∃ hk : k < (calculateSummary fdBranchO po0 [nbItem] 10).1.length,
      ((calculateSummary fdBranchO po0 [nbItem] 10).1[k]).isCheapest = true ∧
      (∀ j (hj : j < (calculateSummary fdBranchO po0 [nbItem] 10).1.length),
        ((calculateSummary fdBranchO po0 [nbItem] 10).1[k]).totalPrice ≤
          ((calculateSummary fdBranchO po0 [nbItem] 10).1[j]).totalPrice) ∧
      (∀ j (hj : j < (calculateSummary fdBranchO po0 [nbItem] 10).1.length), j < k →
        ((calculateSummary fdBranchO po0 [nbItem] 10).1[k]).totalPrice <
          ((calculateSummary fdBranchO po0 [nbItem] 10).1[j]).totalPrice) :=
  (flagging_first_minimum fdBranchO po0 [nbItem] 10 _ rfl).2.2.1
    (by with_unfolding_all exact of_decide_eq_true rfl)

theorem evalItems_diffs (po : String → String → ℚ) (cand : String) :
    ∀ items : List ShoppingItem,
    (evalItems po cand items).diffs = items.filterMap (savingsEntryFor po cand) := by
  intro items
  induction items with
  | nil => rfl
  | cons item rest ih =>
    rw [List.filterMap_cons]
    by_cases hc : (decide (cand = (absCheapest item).1) = false ∧
        priceAtShop po cand item - (absCheapest item).2 > 1/100)
    · have h1 : savingsEntryFor po cand item = some ⟨item.name, (absCheapest item).2,
          (absCheapest item).1, priceAtShop po cand item,
          priceAtShop po cand item - (absCheapest item).2⟩ := by
        unfold savingsEntryFor
        rw [if_pos hc]
      rw [h1]
      show (if (decide (cand = (absCheapest item).1)) = false ∧
          priceAtShop po cand item - (absCheapest item).2 > 1/100 then
            [(⟨item.name, (absCheapest item).2, (absCheapest item).1,
              priceAtShop po cand item,
              priceAtShop po cand item - (absCheapest item).2⟩ : SavingsEntry)]
          else []) ++ (evalItems po cand rest).diffs = _
      rw [if_pos hc, ih]
      rfl
    · have h1 : savingsEntryFor po cand item = none := by
        unfold savingsEntryFor
        rw [if_neg hc]
      rw [h1]
      show (if (decide (cand = (absCheapest item).1)) = false ∧
          priceAtShop po cand item - (absCheapest item).2 > 1/100 then
            [(⟨item.name, (absCheapest item).2, (absCheapest item).1,
              priceAtShop po cand item,
              priceAtShop po cand item - (absCheapest item).2⟩ : SavingsEntry)]
          else []) ++ (evalItems po cand rest).diffs = _
      rw [if_neg hc, ih]
      rfl

theorem evalItems_savings (po : String → String → ℚ) (cand : String) :
    ∀ items : List ShoppingItem,
    (evalItems po cand items).savings =
      ((evalItems po cand items).diffs.map (fun d => d.difference)).sum := by
  intro items
  induction items with
  | nil => simp [evalItems]
  | cons item rest ih =>
    have hstep : (evalItems po cand (item :: rest)).savings =
        (if decide (cand = (absCheapest item).1) = false ∧
            priceAtShop po cand item - (absCheapest item).2 > 1/100 then
          priceAtShop po cand item - (absCheapest item).2 else 0) +
        (evalItems po cand rest).savings := rfl
    have hdstep : (evalItems po cand (item :: rest)).diffs =
        (if decide (cand = (absCheapest item).1) = false ∧
            priceAtShop po cand item - (absCheapest item).2 > 1/100 then
          [(⟨item.name, (absCheapest item).2, (absCheapest item).1,
            priceAtShop po cand item,
            priceAtShop po cand item - (absCheapest item).2⟩ : SavingsEntry)] else []) ++
        (evalItems po cand rest).diffs := rfl
    rw [hstep, hdstep, ih]
    by_cases hc : (decide (cand = (absCheapest item).1) = false ∧
        priceAtShop po cand item - (absCheapest item).2 > 1/100)
    · rw [if_pos hc, if_pos hc]
      simp
    · rw [if_neg hc, if_neg hc]
      simp

theorem setFlags_savings_mem (cIdx qIdx : Option ℕ) :
    ∀ (i : ℕ) (l : List RankedShop) (s : RankedShop), s ∈ setFlags cIdx qIdx i l →
    ∃ s₀ ∈ l, s.savingsDiff = s₀.savingsDiff ∧ s.potentialSavings = s₀.potentialSavings := by
  intro i l
  induction l generalizing i with
  | nil => intro s hs; exact absurd hs (by simp [setFlags])
  | cons x rest ih =>
    intro s hs
    rw [setFlags] at hs
    rcases List.mem_cons.mp hs with rfl | hs2
    · exact ⟨x, List.mem_cons_self x rest, rfl, rfl⟩
    · obtain ⟨s₀, hs₀, he⟩ := ih (i + 1) s hs2
      exact ⟨s₀, List.mem_cons_of_mem x hs₀, he⟩

theorem flagStrategies_savings_mem (l : List RankedShop) (s : RankedShop)
    (hs : s ∈ flagStrategies l) :
    ∃ s₀ ∈ l, s.savingsDiff = s₀.savingsDiff ∧ s.potentialSavings = s₀.potentialSavings := by
  unfold flagStrategies at hs
  by_cases h : 0 < l.length
  · rw [if_pos h] at hs
    exact setFlags_savings_mem _ _ 0 l s hs
  · rw [if_neg h] at hs
    exact ⟨s, hs, rfl, rfl⟩

theorem rankedBase_savings (branchO : String → BranchInfo) (priceO : String → String → ℚ)
    (items : List ShoppingItem) (maxD : ℚ) :
    ∀ s ∈ rankedBase branchO priceO items maxD,
    s.potentialSavings = (s.savingsDiff.map (fun d => d.difference)).sum := by
  intro s hs
  unfold rankedBase at hs
  have hs2 := List.Sublist.mem hs (List.take_sublist _ _)
  rw [(List.perm_insertionSort rankRel _).mem_iff] at hs2
  rw [List.mem_map] at hs2
  obtain ⟨p, hp, hps⟩ := hs2
  rw [List.mem_map] at hp
  obtain ⟨cand, _hcand, hcp⟩ := hp
  rw [← hps, ← hcp]
  show (evalItems priceO cand.1 _).savings =
    ((evalItems priceO cand.1 _).diffs.map (fun d => d.difference)).sum
  exact evalItems_savings priceO cand.1 _

/-- C8: the savings list the inner loop accumulates for a candidate shop holds
exactly one record per item for which the candidate is not the cheapest
shop of the item (the first quote of its list, or the "N/A" placeholder
without quotes) and the price difference strictly exceeds 0.01, and the
potential savings of the strategy is the sum of the recorded differences — a property every strategy of
every ranking run retains; concretely, a 2.50-vs-2.00 item records delta 0.50
and a 2.005-vs-2.00 item records nothing. -/
theorem savings_gap_threshold :
    (∀ (po : String → String → ℚ) (cand : String) (items : List ShoppingItem),
      (evalItems po cand items).diffs = items.filterMap (savingsEntryFor po cand)) ∧
    (∀ (po : String → String → ℚ) (cand : String) (item : ShoppingItem),
      savingsEntryFor po cand item ≠ none ↔
        (cand ≠ (absCheapest item).1 ∧
          priceAtShop po cand item - (absCheapest item).2 > 1/100)) ∧
    (∀ (po : String → String → ℚ) (cand : String) (items : List ShoppingItem),
      (evalItems po cand items).savings =
        ((evalItems po cand items).diffs.map (fun d => d.difference)).sum) ∧
    (∀ (branchO : String → BranchInfo) (po : String → String → ℚ)
      (items : List ShoppingItem) (maxD : ℚ) (s : RankedShop),
      s ∈ (calculateSummary branchO po items maxD).1 →
      s.potentialSavings = (s.savingsDiff.map (fun d => d.difference)).sum) ∧
    (evalItems po0 "ShopX" [gapItemBig]).diffs = [⟨"jam", 2, "ShopC", 5/2, 1/2⟩] ∧
    (evalItems po0 "ShopX" [gapItemBig]).savings = 1/2 ∧
    (evalItems po0 "ShopX" [gapItemSmall]).diffs = [] ∧
    (evalItems po0 "ShopX" [gapItemSmall]).savings = 0 := by
  refine ⟨evalItems_diffs, ?_, evalItems_savings, ?_, by with_unfolding_all rfl,
    by with_unfolding_all rfl, by with_unfolding_all rfl, by with_unfolding_all rfl⟩
  · intro po cand item
    unfold savingsEntryFor
    by_cases hc : (decide (cand = (absCheapest item).1) = false ∧
        priceAtShop po cand item - (absCheapest item).2 > 1/100)
    · rw [if_pos hc]
      simp only [ne_eq, reduceCtorEq, not_false_eq_true, true_iff]
      exact ⟨by simpa using hc.1, hc.2⟩
    · rw [if_neg hc]
      simp only [ne_eq, not_true_eq_false, false_iff, not_and]
      intro hne
      by_contra hgt
      exact hc ⟨by simpa using hne, by simpa using hgt⟩
  · intro branchO po items maxD s hs
    rw [calculateSummary_fst] at hs
    by_cases hz : (items.filter (fun i => decide (i.status = Status.ready))).length = 0
    · rw [if_pos hz] at hs
      exact absurd hs (by simp)
    · rw [if_neg hz] at hs
      obtain ⟨s₀, hs₀, hd, hp⟩ := flagStrategies_savings_mem _ s hs
      rw [hd, hp]
      exact rankedBase_savings branchO po items maxD s₀ hs₀

/-- Witness for `savings_gap_threshold`: the characterization at the concrete
2.50-vs-2.00 item, with the recording condition discharged. -/
theorem savings_gap_threshold_witness :
    (evalItems po0 "ShopX" [gapItemBig]).diffs =
      [gapItemBig].filterMap (savingsEntryFor po0 "ShopX") ∧
    savingsEntryFor po0 "ShopX" gapItemBig ≠ none :=
  ⟨savings_gap_threshold.1 po0 "ShopX" [gapItemBig],
    (savings_gap_threshold.2.1 po0 "ShopX" gapItemBig).mpr
      (by with_unfolding_all exact ⟨of_decide_eq_true rfl, of_decide_eq_true rfl⟩)⟩

end SmartShop
